import Mathlib

/-!
# Verification of the PokeAPI ETL service

Shallow embedding of the repository's core modules:

* `model/pokemon.py`      — the `Pokemon` record and its `to_dict` serialization;
* `repository/pokemon_repo.py` — the store operations (`get_by_name`, `save`, `delete`);
* `service/pokeapi.py`    — the external-adapter payload processing
  (`_process_pokemon_data`) with the HTTP layer abstracted as an oracle
  `fetch : String → Option Payload` (a `none` result stands for any
  `RequestException` / non-2xx response, which the adapter catches and
  converts to `None`);
* `service/pokemon_svc.py` — the domain service (`_normalize_name`,
  `add_pokemon`, `get_pokemon`, `update_pokemon`, `delete_pokemon`,
  `sync_config_list`).

Modelling conventions: Python floats become `ℚ`; the database is a
`List Pokemon`; SQLAlchemy's autoincrement id is `max id + 1`;
`datetime.now` is an abstract `Nat` clock carried in the service state;
Python's ASCII `str.lower`/`str.strip` are embedded character-wise; every
invocation of the external adapter is recorded in an `apiLog` so that
"the adapter is called at most once" is a statement about the log.
-/

namespace PokeETL

/-- ASCII lowercasing of one character, the embedding of `str.lower` on the
ASCII names this service handles: code points 65–90 are shifted by 32. -/
def lowerChar (c : Char) : Char :=
  if 65 ≤ c.toNat ∧ c.toNat ≤ 90 then Char.ofNat (c.toNat + 32) else c

/-- Embedding of Python `s.lower()` (ASCII fragment). -/
def lowerStr (s : String) : String := String.mk (s.data.map lowerChar)

/-- The whitespace characters stripped by Python `str.strip`. -/
def isSpaceChar (c : Char) : Bool :=
  c = ' ' || c = '\t' || c = '\n' || c = '\r' || c = '\x0b' || c = '\x0c'

/-- Embedding of Python `s.strip()`: drop whitespace at both ends. -/
def stripStr (s : String) : String :=
  String.mk (((s.data.dropWhile isSpaceChar).reverse.dropWhile isSpaceChar).reverse)

/-- Does the text start with the pattern (character-list level)? -/
def charsLead : List Char → List Char → Bool
  | [], _ => true
  | _ :: _, [] => false
  | a :: pa, b :: tb => a == b && charsLead pa tb

/-- Does the pattern occur contiguously somewhere in the text? -/
def charsHave (pat : List Char) : List Char → Bool
  | [] => charsLead pat []
  | l@(_ :: rest) => charsLead pat l || charsHave pat rest

/-- Embedding of Python's `pat in s` substring test. -/
def containsSub (s pat : String) : Bool := charsHave pat.data s.data

/-! ## The external payload (`response.json()` of the PokeAPI)

Only the fields the adapter consumes are modelled.  The four nested
list fields are `Option`s: `none` embeds a JSON object in which the key
is absent (the code reads them with `data.get(key, [])`), while the four
scalar fields are read with `data[key]` and are therefore mandatory. -/

structure AbilityRef where
  name : String

structure AbilityItem where
  ability : AbilityRef

structure StatRef where
  name : String

structure StatItem where
  stat : StatRef
  base_stat : Int

structure TypeRef where
  name : String

structure TypeItem where
  type : TypeRef

structure MoveRef where
  name : String

structure MoveItem where
  move : MoveRef

structure Payload where
  name : String
  height : Int
  weight : Int
  base_experience : Int
  abilities : Option (List AbilityItem)
  stats : Option (List StatItem)
  types : Option (List TypeItem)
  moves : Option (List MoveItem)

/-- The dictionary produced by `PokeAPIClient._process_pokemon_data`.
Python's dict comprehension for `stats` is modelled as the association
list of (stat name, base stat) pairs in payload order. -/
structure RawData where
  name : String
  height : ℚ
  weight : ℚ
  base_experience : Int
  abilities : List String
  stats : List (String × Int)
  types : List String
  moves : List String

namespace PokeAPIClient

/-- Embedding of `PokeAPIClient._process_pokemon_data` (service/pokeapi.py): unit
conversion (divide height and weight by 10) and flattening of the four
nested fields, with `.get(key, [])` defaulting a missing key to `[]`. -/
def _process_pokemon_data (data : Payload) : RawData :=
  { name := data.name
    height := (data.height : ℚ) / 10
    weight := (data.weight : ℚ) / 10
    base_experience := data.base_experience
    abilities := (data.abilities.getD []).map (fun item => item.ability.name)
    stats := (data.stats.getD []).map (fun item => (item.stat.name, item.base_stat))
    types := (data.types.getD []).map (fun item => item.type.name)
    moves := (data.moves.getD []).map (fun item => item.move.name) }

/-- Embedding of `PokeAPIClient.get_pokemon`: lowercase the name for the URL, fetch
(the oracle stands for `requests.get` + `.json()`, `none` for any
`RequestException`), and process the payload on success. -/
def get_pokemon (fetch : String → Option Payload) (name : String) : Option RawData :=
  (fetch (lowerStr name)).map _process_pokemon_data

end PokeAPIClient

/-! ## The `Pokemon` model (model/pokemon.py) -/

/-- The `pokemon` table row. `id`, `created_at` and `updated_at` are
`Option`s because they are `None` on a freshly constructed object and
are filled in by the column defaults when the row is inserted. -/
structure Pokemon where
  id : Option Nat
  name : String
  height : ℚ
  weight : ℚ
  base_experience : Int
  abilities : List String
  stats : List (String × Int)
  types : List String
  moves : List String
  created_at : Option Nat
  updated_at : Option Nat
deriving DecidableEq

/-- The serialization produced by `Pokemon.to_dict`. -/
structure PokemonDict where
  id : Option Nat
  name : String
  height : ℚ
  weight : ℚ
  base_experience : Int
  abilities : List String
  stats : List (String × Int)
  types : List String
  moves : List String
  created_at : Option Nat
  updated_at : Option Nat
deriving DecidableEq

/-- Embedding of `Pokemon.to_dict`. -/
def Pokemon.to_dict (p : Pokemon) : PokemonDict :=
  { id := p.id, name := p.name, height := p.height, weight := p.weight
    base_experience := p.base_experience, abilities := p.abilities
    stats := p.stats, types := p.types, moves := p.moves
    created_at := p.created_at, updated_at := p.updated_at }

/-- Embedding of `Pokemon(**raw_data)`: construct a fresh (not yet persisted) row from
the adapter dictionary; `id` and the timestamps are still unset. -/
def Pokemon.ofRawData (rd : RawData) : Pokemon :=
  { id := none, name := rd.name, height := rd.height, weight := rd.weight
    base_experience := rd.base_experience, abilities := rd.abilities
    stats := rd.stats, types := rd.types, moves := rd.moves
    created_at := none, updated_at := none }

/-! ## The repository (repository/pokemon_repo.py) -/

namespace PokemonRepository

/-- Embedding of `PokemonRepository.get_by_name`:
`Pokemon.query.filter_by(name=name.lower()).first()`. -/
def get_by_name (store : List Pokemon) (name : String) : Option Pokemon :=
  (store.filter (fun p => p.name == lowerStr name)).head?

/-- Embedding of `PokemonRepository.get_all`. -/
def get_all (store : List Pokemon) : List Pokemon := store

/-- The autoincrement primary key the database assigns at INSERT. -/
def nextId (store : List Pokemon) : Nat :=
  (store.map (fun p => p.id.getD 0)).foldr max 0 + 1

/-- Embedding of `PokemonRepository.save` (`db.session.add` + `commit`): a row without
an id is inserted (the id and the timestamp column defaults are
assigned), a row with an id is updated in place (`onupdate` refreshes
`updated_at`).  Returns the new store and the persisted entity. -/
def save (store : List Pokemon) (now : Nat) (p : Pokemon) : List Pokemon × Pokemon :=
  match p.id with
  | none =>
    let saved : Pokemon :=
      { p with id := some (nextId store)
               created_at := some (p.created_at.getD now)
               updated_at := some (p.updated_at.getD now) }
    (store ++ [saved], saved)
  | some _ =>
    let saved : Pokemon := { p with updated_at := some now }
    (store.map (fun q => if q.id = p.id then saved else q), saved)

/-- Embedding of `PokemonRepository.delete` (`db.session.delete` + `commit`): remove
the row with the entity's primary key. -/
def delete (store : List Pokemon) (p : Pokemon) : List Pokemon :=
  store.filter (fun q => !(q.id == p.id))

end PokemonRepository

/-! ## The service (service/pokemon_svc.py) -/

/-- Service-visible state: the database, the log of names passed to
`api_client.get_pokemon` (one entry per external-adapter invocation),
and the abstract clock. -/
structure ServiceState where
  store : List Pokemon
  apiLog : List String
  now : Nat

namespace PokemonService

/-- Embedding of `self._name_mapping`: the typo-correction table. -/
def name_mapping : List (String × String) := [("terodactyl", "aerodactyl")]

/-- Embedding of `PokemonService._normalize_name`: lowercase, strip, then apply the
correction table. -/
def _normalize_name (name : String) : String :=
  let clean_name := stripStr (lowerStr name)
  match name_mapping.lookup clean_name with
  | some mapped => mapped
  | none => clean_name

/-- Embedding of `PokemonService.get_all_pokemon`. -/
def get_all_pokemon (s : ServiceState) : List PokemonDict :=
  (PokemonRepository.get_all s.store).map Pokemon.to_dict

/-- Embedding of `PokemonService.get_pokemon`. -/
def get_pokemon (s : ServiceState) (name : String) : Option PokemonDict :=
  let normalized_name := _normalize_name name
  (PokemonRepository.get_by_name s.store normalized_name).map Pokemon.to_dict

/-- Embedding of `PokemonService.add_pokemon`: idempotency check against the store,
then fetch from the adapter, then create and save.  Every adapter
invocation appends the queried name to `apiLog`. -/
def add_pokemon (fetch : String → Option Payload) (s : ServiceState) (name : String) :
    ServiceState × Option PokemonDict × String :=
  let normalized_name := _normalize_name name
  match PokemonRepository.get_by_name s.store normalized_name with
  | some existing =>
    (s, some existing.to_dict, "Pokemon " ++ normalized_name ++ " already exists in database")
  | none =>
    let s1 : ServiceState := { s with apiLog := s.apiLog ++ [normalized_name] }
    match PokeAPIClient.get_pokemon fetch normalized_name with
    | none =>
      (s1, none, "Failed to fetch data for " ++ name ++ " (mapped to " ++ normalized_name ++ ")")
    | some raw_data =>
      let new_pokemon := Pokemon.ofRawData raw_data
      let saved := PokemonRepository.save s1.store s1.now new_pokemon
      ({ s1 with store := saved.1 }, some saved.2.to_dict,
        "Successfully added " ++ normalized_name ++ " to database")

/-- Embedding of `PokemonService.delete_pokemon`. -/
def delete_pokemon (s : ServiceState) (name : String) : ServiceState × Bool :=
  let normalized_name := _normalize_name name
  match PokemonRepository.get_by_name s.store normalized_name with
  | some pokemon => ({ s with store := PokemonRepository.delete s.store pokemon }, true)
  | none => (s, false)

/-- The dynamic field-copy loop of `update_pokemon`
(`for key, value in raw_data.items(): if hasattr(pokemon, key): setattr(...)`).
`raw_data` always carries exactly the eight keys produced by
`_process_pokemon_data`, each of which is a `Pokemon` attribute, so the
loop overwrites exactly these eight fields and nothing else. -/
def applyRawData (p : Pokemon) (rd : RawData) : Pokemon :=
  { p with name := rd.name, height := rd.height, weight := rd.weight
           base_experience := rd.base_experience, abilities := rd.abilities
           stats := rd.stats, types := rd.types, moves := rd.moves }

/-- Embedding of `PokemonService.update_pokemon`: lookup (short-circuit on absence),
fetch, overwrite the fetched fields, save. -/
def update_pokemon (fetch : String → Option Payload) (s : ServiceState) (name : String) :
    ServiceState × Bool × String :=
  let normalized_name := _normalize_name name
  match PokemonRepository.get_by_name s.store normalized_name with
  | none => (s, false, "Pokemon " ++ normalized_name ++ " not found locally")
  | some pokemon =>
    let s1 : ServiceState := { s with apiLog := s.apiLog ++ [normalized_name] }
    match PokeAPIClient.get_pokemon fetch normalized_name with
    | none => (s1, false, "Failed to fetch update for " ++ normalized_name)
    | some raw_data =>
      let updated := applyRawData pokemon raw_data
      let saved := PokemonRepository.save s1.store s1.now updated
      ({ s1 with store := saved.1 }, true, "Successfully updated " ++ normalized_name)

/-- The three reporting buckets of `sync_config_list`'s loop body. -/
inductive SyncOutcome
  | added
  | alreadyExisted
  | failed
deriving DecidableEq

/-- The classification performed by the `if data and "already exists" not
in msg / elif "already exists" in msg / else` chain (an empty dict is
falsy in Python, but `to_dict` never returns an empty dict, so
truthiness of `data` is `isSome`). -/
def classifyOutcome (data : Option PokemonDict) (msg : String) : SyncOutcome :=
  if data.isSome && !(containsSub msg "already exists") then .added
  else if containsSub msg "already exists" then .alreadyExisted
  else .failed

/-- Embedding of `PokemonService.sync_config_list`: sequentially `add_pokemon` every
name in list order, classifying each outcome for reporting; no outcome
interrupts the loop. -/
def sync_config_list (fetch : String → Option Payload) :
    ServiceState → List String → ServiceState × List SyncOutcome
  | s, [] => (s, [])
  | s, name :: rest =>
    let r := add_pokemon fetch s name
    let k := sync_config_list fetch r.1 rest
    (k.1, classifyOutcome r.2.1 r.2.2 :: k.2)

end PokemonService

/-! ## Derived record shapes and spec-level predicates -/

/-- The row that an insert-`save` of `Pokemon(**raw_data)` places in the
store: the fields of the adapter dictionary plus the generated id and
the timestamp column defaults. -/
def insertedRecord (store : List Pokemon) (now : Nat) (rd : RawData) : Pokemon :=
  { id := some (PokemonRepository.nextId store), name := rd.name, height := rd.height
    weight := rd.weight, base_experience := rd.base_experience, abilities := rd.abilities
    stats := rd.stats, types := rd.types, moves := rd.moves
    created_at := some now, updated_at := some now }

/-- The row an update-`save` writes back: the existing record with the
eight fetched fields overwritten and `updated_at` refreshed. -/
def updatedRecord (p : Pokemon) (rd : RawData) (now : Nat) : Pokemon :=
  { PokemonService.applyRawData p rd with updated_at := some now }

/-- The store invariant of the data model: names are lowercase and
unique; persisted rows also carry distinct primary keys (ids), which the
autoincrement column guarantees. -/
def StoreWF (store : List Pokemon) : Prop :=
  (∀ p ∈ store, lowerStr p.name = p.name) ∧
  (store.map (fun p => p.name)).Nodup ∧
  (∀ p ∈ store, p.id.isSome) ∧
  (store.map (fun p => p.id)).Nodup

/-- The external API's contract: the payload served for a queried name
carries that very name (the code relies on this; it is a property of
the collaborator, not enforced anywhere in the repository). -/
def FetchConsistent (fetch : String → Option Payload) : Prop :=
  ∀ n p, fetch n = some p → p.name = n

/-! ## Concrete instances used by counterexamples and witnesses -/

/-- A minimal payload (height 7 decimeters, weight 69 hectograms, the
four nested keys absent). -/
def samplePayload (n : String) : Payload :=
  { name := n, height := 7, weight := 69, base_experience := 64
    abilities := none, stats := none, types := none, moves := none }

/-- The empty initial service state. -/
def s0 : ServiceState := { store := [], apiLog := [], now := 0 }

/-- An adapter for which every request fails. -/
def fetchNone : String → Option Payload := fun _ => none

/-- An adapter knowing `bulbasaur` and `charmander` and nothing else;
each payload carries the queried name. -/
def fetch3 : String → Option Payload := fun n =>
  if n = "bulbasaur" then some (samplePayload "bulbasaur")
  else if n = "charmander" then some (samplePayload "charmander")
  else none

/-- A misbehaving adapter: asked for `pikachu`, it serves a payload whose
name field is capitalized. -/
def fetchRogue : String → Option Payload := fun n =>
  if n = "pikachu" then some (samplePayload "Pikachu") else none

/-- A persisted `pikachu` row. -/
def p1 : Pokemon :=
  { id := some 1, name := "pikachu", height := 1, weight := 1, base_experience := 100
    abilities := [], stats := [], types := [], moves := []
    created_at := some 0, updated_at := some 0 }

/-- A state whose store already holds `p1`. -/
def s1 : ServiceState := { store := [p1], apiLog := [], now := 5 }

/-- A persisted `bulbasaur` row. -/
def pb : Pokemon :=
  { id := some 1, name := "bulbasaur", height := 1, weight := 1, base_experience := 64
    abilities := [], stats := [], types := [], moves := []
    created_at := some 2, updated_at := some 2 }

/-- A state whose store already holds `pb`. -/
def sb : ServiceState := { store := [pb], apiLog := [], now := 9 }

/-! ## Helper lemmas: characters and strings -/

theorem toNat_ofNat_valid (n : Nat) (h : n < 55296) : (Char.ofNat n).toNat = n := by
  simp [Char.ofNat, Nat.isValidChar, h, Char.ofNatAux, Char.toNat]
  rfl

theorem lowerChar_idem (c : Char) : lowerChar (lowerChar c) = lowerChar c := by
  by_cases h : 65 ≤ c.toNat ∧ c.toNat ≤ 90
  · have h32 : (Char.ofNat (c.toNat + 32)).toNat = c.toNat + 32 :=
      toNat_ofNat_valid _ (by omega)
    simp only [lowerChar, if_pos h, h32]
    rw [if_neg (by omega)]
  · simp only [lowerChar, if_neg h]

theorem map_fix_of_all {l : List Char} {f : Char → Char} (h : ∀ c ∈ l, f c = c) :
    l.map f = l := by
  induction l with
  | nil => rfl
  | cons a t ih =>
    simp only [List.map_cons, h a (List.mem_cons_self a t)]
    rw [ih fun c hc => h c (List.mem_cons_of_mem a hc)]

theorem lowerStr_lowerStr (s : String) : lowerStr (lowerStr s) = lowerStr s := by
  simp only [lowerStr]
  rw [map_fix_of_all]
  intro c hc
  rcases List.mem_map.mp hc with ⟨d, _, rfl⟩
  exact lowerChar_idem d

theorem mem_data_stripStr {c : Char} {s : String} (h : c ∈ (stripStr s).data) :
    c ∈ s.data := by
  simp only [stripStr] at h
  rw [List.mem_reverse] at h
  have h2 := List.Sublist.mem h (List.dropWhile_sublist _)
  rw [List.mem_reverse] at h2
  exact List.Sublist.mem h2 (List.dropWhile_sublist _)

theorem lowerStr_eq_self_of_mem {s : String} (h : ∀ c ∈ s.data, lowerChar c = c) :
    lowerStr s = s := by
  show String.mk (s.data.map lowerChar) = s
  rw [map_fix_of_all h]

theorem normalize_isLower (name : String) :
    lowerStr (PokemonService._normalize_name name) = PokemonService._normalize_name name := by
  have hfix : ∀ c ∈ (stripStr (lowerStr name)).data, lowerChar c = c := by
    intro c hc
    have hc2 := mem_data_stripStr hc
    rcases List.mem_map.mp hc2 with ⟨d, _, rfl⟩
    exact lowerChar_idem d
  simp only [PokemonService._normalize_name]
  cases hl : (PokemonService.name_mapping).lookup (stripStr (lowerStr name)) with
  | some v =>
    have hv : v = "aerodactyl" := by
      simp only [PokemonService.name_mapping, List.lookup] at hl
      split at hl
      · exact (Option.some.inj hl).symm
      · exact absurd hl (by simp)
    rw [hv]
    show lowerStr "aerodactyl" = "aerodactyl"
    decide
  | none =>
    exact lowerStr_eq_self_of_mem hfix

/-! ## Helper lemmas: the substring test -/

theorem charsLead_append (l t : List Char) : charsLead l (l ++ t) = true := by
  induction l with
  | nil => rfl
  | cons a l ih => simp [charsLead, ih]

theorem charsHave_append (x pat y : List Char) : charsHave pat (x ++ pat ++ y) = true := by
  induction x with
  | nil =>
    show charsHave pat (pat ++ y) = true
    cases hp : pat ++ y with
    | nil =>
      have : pat = [] := by cases pat <;> simp_all
      subst this
      rfl
    | cons a t =>
      rw [charsHave, ← hp, charsLead_append]
      rfl
  | cons a x ih =>
    show charsHave pat (a :: (x ++ pat ++ y)) = true
    rw [charsHave, ih, Bool.or_true]

theorem containsSub_append (x m y : String) : containsSub (x ++ m ++ y) m = true := by
  simp only [containsSub, String.data_append]
  exact charsHave_append x.data m.data y.data

theorem charsHave_append_right (pat s t : List Char) (h : charsHave pat t = true) :
    charsHave pat (s ++ t) = true := by
  induction s with
  | nil => exact h
  | cons a s ih =>
    show charsHave pat (a :: (s ++ t)) = true
    rw [charsHave, ih, Bool.or_true]

theorem containsSub_right (x y m : String) (h : containsSub y m = true) :
    containsSub (x ++ y) m = true := by
  simp only [containsSub, String.data_append] at *
  exact charsHave_append_right m.data x.data y.data h

/-! ## Helper lemmas: repository lookups and ids -/

theorem mem_of_head? {α : Type _} {l : List α} {a : α} (h : l.head? = some a) : a ∈ l := by
  cases l with
  | nil => exact absurd h (by simp)
  | cons b t =>
    have hb : b = a := Option.some.inj h
    rw [← hb]
    exact List.mem_cons_self b t

theorem get_by_name_some {store : List Pokemon} {n : String} {p : Pokemon}
    (h : PokemonRepository.get_by_name store n = some p) :
    p ∈ store ∧ p.name = lowerStr n := by
  unfold PokemonRepository.get_by_name at h
  have hm := mem_of_head? h
  refine ⟨List.mem_of_mem_filter hm, ?_⟩
  have hb := @List.of_mem_filter Pokemon (fun q => q.name == lowerStr n) p store hm
  exact beq_iff_eq.mp hb

theorem get_by_name_none {store : List Pokemon} {n : String} :
    PokemonRepository.get_by_name store n = none ↔ ∀ p ∈ store, p.name ≠ lowerStr n := by
  unfold PokemonRepository.get_by_name
  rw [List.head?_eq_none_iff, List.filter_eq_nil_iff]
  constructor <;> intro h p hp
  · intro he
    exact h p hp (by simp [he])
  · simp [h p hp]

theorem get_by_name_append_fresh {store : List Pokemon} {nn : String} {r : Pokemon}
    (h1 : PokemonRepository.get_by_name store nn = none)
    (hr : r.name = lowerStr nn) :
    PokemonRepository.get_by_name (store ++ [r]) nn = some r := by
  unfold PokemonRepository.get_by_name at h1 ⊢
  rw [List.head?_eq_none_iff] at h1
  rw [List.filter_append, h1]
  simp [List.filter, hr]

theorem le_foldr_max {l : List Nat} {x : Nat} (h : x ∈ l) : x ≤ l.foldr max 0 := by
  induction l with
  | nil => cases h
  | cons a t ih =>
    rcases List.mem_cons.mp h with rfl | ht
    · exact le_max_left _ _
    · exact le_trans (ih ht) (le_max_right _ _)

theorem id_ne_nextId {store : List Pokemon} {p : Pokemon} (hp : p ∈ store) :
    p.id ≠ some (PokemonRepository.nextId store) := by
  intro he
  have hm : p.id.getD 0 ∈ store.map (fun q => q.id.getD 0) :=
    List.mem_map_of_mem _ hp
  have hle := le_foldr_max hm
  rw [he] at hle
  simp only [Option.getD_some, PokemonRepository.nextId] at hle
  omega

/-! ## Shape lemmas: one per branch of `add_pokemon` / `update_pokemon` -/

theorem save_ofRawData (store : List Pokemon) (now : Nat) (rd : RawData) :
    PokemonRepository.save store now (Pokemon.ofRawData rd) =
      (store ++ [insertedRecord store now rd], insertedRecord store now rd) := rfl

theorem save_existing {p : Pokemon} {i : Nat} (store : List Pokemon) (now : Nat)
    (h : p.id = some i) :
    PokemonRepository.save store now p =
      (store.map (fun q => if q.id = p.id then { p with updated_at := some now } else q),
        { p with updated_at := some now }) := by
  simp only [PokemonRepository.save, h]

theorem add_existing {fetch : String → Option Payload} {s : ServiceState} {name : String}
    {p : Pokemon}
    (h : PokemonRepository.get_by_name s.store (PokemonService._normalize_name name) = some p) :
    PokemonService.add_pokemon fetch s name =
      (s, some p.to_dict,
        "Pokemon " ++ PokemonService._normalize_name name ++ " already exists in database") := by
  simp only [PokemonService.add_pokemon, h]

theorem add_unfetched {fetch : String → Option Payload} {s : ServiceState} {name : String}
    (h1 : PokemonRepository.get_by_name s.store (PokemonService._normalize_name name) = none)
    (h2 : fetch (lowerStr (PokemonService._normalize_name name)) = none) :
    PokemonService.add_pokemon fetch s name =
      ({ store := s.store, apiLog := s.apiLog ++ [PokemonService._normalize_name name],
         now := s.now },
        none,
        "Failed to fetch data for " ++ name ++ " (mapped to " ++
          PokemonService._normalize_name name ++ ")") := by
  simp only [PokemonService.add_pokemon, h1, PokeAPIClient.get_pokemon, h2, Option.map_none']

theorem add_fetched {fetch : String → Option Payload} {s : ServiceState} {name : String}
    {payload : Payload}
    (h1 : PokemonRepository.get_by_name s.store (PokemonService._normalize_name name) = none)
    (h2 : fetch (lowerStr (PokemonService._normalize_name name)) = some payload) :
    PokemonService.add_pokemon fetch s name =
      ({ store := s.store ++
            [insertedRecord s.store s.now (PokeAPIClient._process_pokemon_data payload)],
         apiLog := s.apiLog ++ [PokemonService._normalize_name name], now := s.now },
        some (insertedRecord s.store s.now (PokeAPIClient._process_pokemon_data payload)).to_dict,
        "Successfully added " ++ PokemonService._normalize_name name ++ " to database") := by
  simp only [PokemonService.add_pokemon, h1, PokeAPIClient.get_pokemon, h2, Option.map_some',
    save_ofRawData]

theorem update_missing {fetch : String → Option Payload} {s : ServiceState} {name : String}
    (h : PokemonRepository.get_by_name s.store (PokemonService._normalize_name name) = none) :
    PokemonService.update_pokemon fetch s name =
      (s, false, "Pokemon " ++ PokemonService._normalize_name name ++ " not found locally") := by
  simp only [PokemonService.update_pokemon, h]

theorem update_unfetched {fetch : String → Option Payload} {s : ServiceState} {name : String}
    {p : Pokemon}
    (h1 : PokemonRepository.get_by_name s.store (PokemonService._normalize_name name) = some p)
    (h2 : fetch (lowerStr (PokemonService._normalize_name name)) = none) :
    PokemonService.update_pokemon fetch s name =
      ({ store := s.store, apiLog := s.apiLog ++ [PokemonService._normalize_name name],
         now := s.now },
        false,
        "Failed to fetch update for " ++ PokemonService._normalize_name name) := by
  simp only [PokemonService.update_pokemon, h1, PokeAPIClient.get_pokemon, h2, Option.map_none']

theorem update_fetched {fetch : String → Option Payload} {s : ServiceState} {name : String}
    {p : Pokemon} {i : Nat} {payload : Payload}
    (h1 : PokemonRepository.get_by_name s.store (PokemonService._normalize_name name) = some p)
    (hid : p.id = some i)
    (h2 : fetch (lowerStr (PokemonService._normalize_name name)) = some payload) :
    PokemonService.update_pokemon fetch s name =
      ({ store := s.store.map (fun q =>
            if q.id = p.id then
              updatedRecord p (PokeAPIClient._process_pokemon_data payload) s.now
            else q),
         apiLog := s.apiLog ++ [PokemonService._normalize_name name], now := s.now },
        true,
        "Successfully updated " ++ PokemonService._normalize_name name) := by
  have hid2 : (PokemonService.applyRawData p
      (PokeAPIClient._process_pokemon_data payload)).id = some i := hid
  simp only [PokemonService.update_pokemon, h1, PokeAPIClient.get_pokemon, h2, Option.map_some',
    PokemonRepository.save, hid2, updatedRecord]
  rw [hid]

/-! ## Invariant preservation -/

theorem StoreWF_sublist {l₁ l₂ : List Pokemon} (hs : l₁.Sublist l₂) (h : StoreWF l₂) :
    StoreWF l₁ := by
  obtain ⟨hlow, hnames, hsome, hids⟩ := h
  exact ⟨fun p hp => hlow p (List.Sublist.mem hp hs),
    List.Nodup.sublist (List.Sublist.map _ hs) hnames,
    fun p hp => hsome p (List.Sublist.mem hp hs),
    List.Nodup.sublist (List.Sublist.map _ hs) hids⟩

theorem add_preserves_WF {fetch : String → Option Payload} (hfc : FetchConsistent fetch)
    (s : ServiceState) (name : String) (hwf : StoreWF s.store) :
    StoreWF (PokemonService.add_pokemon fetch s name).1.store := by
  cases h1 : PokemonRepository.get_by_name s.store (PokemonService._normalize_name name) with
  | some p => rw [add_existing h1]; exact hwf
  | none =>
    cases h2 : fetch (lowerStr (PokemonService._normalize_name name)) with
    | none => rw [add_unfetched h1 h2]; exact hwf
    | some payload =>
      rw [add_fetched h1 h2]
      obtain ⟨hlow, hnames, hsome, hids⟩ := hwf
      have hrname : (insertedRecord s.store s.now
          (PokeAPIClient._process_pokemon_data payload)).name =
            lowerStr (PokemonService._normalize_name name) := hfc _ _ h2
      have hnotin := get_by_name_none.mp h1
      refine ⟨?_, ?_, ?_, ?_⟩
      · intro p hp
        rcases List.mem_append.mp hp with hp | hp
        · exact hlow p hp
        · rcases List.mem_cons.mp hp with rfl | hp
          · rw [hrname, lowerStr_lowerStr]
          · cases hp
      · rw [List.map_append, List.nodup_append]
        refine ⟨hnames, List.nodup_singleton _, ?_⟩
        intro a ha hb
        rcases List.mem_map.mp ha with ⟨q, hq, rfl⟩
        rcases List.mem_cons.mp hb with he | hb
        · exact hnotin q hq (he.trans hrname)
        · cases hb
      · intro p hp
        rcases List.mem_append.mp hp with hp | hp
        · exact hsome p hp
        · rcases List.mem_cons.mp hp with rfl | hp
          · rfl
          · cases hp
      · rw [List.map_append, List.nodup_append]
        refine ⟨hids, List.nodup_singleton _, ?_⟩
        intro a ha hb
        rcases List.mem_map.mp ha with ⟨q, hq, rfl⟩
        rcases List.mem_cons.mp hb with he | hb
        · exact id_ne_nextId hq he
        · cases hb

theorem update_preserves_WF {fetch : String → Option Payload} (hfc : FetchConsistent fetch)
    (s : ServiceState) (name : String) (hwf : StoreWF s.store) :
    StoreWF (PokemonService.update_pokemon fetch s name).1.store := by
  cases h1 : PokemonRepository.get_by_name s.store (PokemonService._normalize_name name) with
  | none => rw [update_missing h1]; exact hwf
  | some p =>
    cases h2 : fetch (lowerStr (PokemonService._normalize_name name)) with
    | none => rw [update_unfetched h1 h2]; exact hwf
    | some payload =>
      obtain ⟨hlow, hnames, hsome, hids⟩ := hwf
      obtain ⟨hpmem, hpname⟩ := get_by_name_some h1
      obtain ⟨i, hid⟩ := Option.isSome_iff_exists.mp (hsome p hpmem)
      rw [update_fetched h1 hid h2]
      have hrname : (updatedRecord p (PokeAPIClient._process_pokemon_data payload) s.now).name
          = p.name := by
        show payload.name = p.name
        rw [hfc _ _ h2, hpname]
      have hrid : (updatedRecord p (PokeAPIClient._process_pokemon_data payload) s.now).id
          = p.id := rfl
      have hptwise : ∀ q ∈ s.store,
          (if q.id = p.id then
            updatedRecord p (PokeAPIClient._process_pokemon_data payload) s.now
          else q) = if q.id = p.id then
            updatedRecord p (PokeAPIClient._process_pokemon_data payload) s.now
          else q := fun _ _ => rfl
      have hmapname : (s.store.map (fun q =>
          if q.id = p.id then
            updatedRecord p (PokeAPIClient._process_pokemon_data payload) s.now
          else q)).map (fun r => r.name) = s.store.map (fun r => r.name) := by
        rw [List.map_map]
        apply List.map_congr_left
        intro q hq
        by_cases hqid : q.id = p.id
        · have hqp : q = p := List.inj_on_of_nodup_map hids hq hpmem hqid
          simp [Function.comp, hqid, hrname, hqp]
        · simp [Function.comp, hqid]
      have hmapid : (s.store.map (fun q =>
          if q.id = p.id then
            updatedRecord p (PokeAPIClient._process_pokemon_data payload) s.now
          else q)).map (fun r => r.id) = s.store.map (fun r => r.id) := by
        rw [List.map_map]
        apply List.map_congr_left
        intro q hq
        by_cases hqid : q.id = p.id
        · simp [Function.comp, hqid, hrid]
        · simp [Function.comp, hqid]
      refine ⟨?_, ?_, ?_, ?_⟩
      · intro q' hq'
        rcases List.mem_map.mp hq' with ⟨q, hq, rfl⟩
        by_cases hqid : q.id = p.id
        · rw [if_pos hqid, hrname]
          exact hlow p hpmem
        · rw [if_neg hqid]
          exact hlow q hq
      · rw [hmapname]; exact hnames
      · intro q' hq'
        rcases List.mem_map.mp hq' with ⟨q, hq, rfl⟩
        by_cases hqid : q.id = p.id
        · rw [if_pos hqid, hrid, hid]; rfl
        · rw [if_neg hqid]
          exact hsome q hq
      · rw [hmapid]; exact hids

theorem delete_preserves_WF (s : ServiceState) (name : String) (hwf : StoreWF s.store) :
    StoreWF (PokemonService.delete_pokemon s name).1.store := by
  cases h : PokemonRepository.get_by_name s.store (PokemonService._normalize_name name) with
  | none => simp only [PokemonService.delete_pokemon, h]; exact hwf
  | some p =>
    simp only [PokemonService.delete_pokemon, h]
    exact StoreWF_sublist (List.filter_sublist _) hwf

theorem sync_preserves_WF {fetch : String → Option Payload} (hfc : FetchConsistent fetch) :
    ∀ (l : List String) (s : ServiceState), StoreWF s.store →
      StoreWF (PokemonService.sync_config_list fetch s l).1.store := by
  intro l
  induction l with
  | nil => intro s h; exact h
  | cons n rest ih =>
    intro s h
    exact ih _ (add_preserves_WF hfc s n h)

/-! ## Sequencing lemmas for the batch sync -/

theorem sync_config_list_append (fetch : String → Option Payload) (l₁ l₂ : List String) :
    ∀ s : ServiceState,
      PokemonService.sync_config_list fetch s (l₁ ++ l₂) =
        ((PokemonService.sync_config_list fetch
            (PokemonService.sync_config_list fetch s l₁).1 l₂).1,
          (PokemonService.sync_config_list fetch s l₁).2 ++
            (PokemonService.sync_config_list fetch
              (PokemonService.sync_config_list fetch s l₁).1 l₂).2) := by
  induction l₁ with
  | nil => intro s; rfl
  | cons n rest ih =>
    intro s
    simp only [List.cons_append, PokemonService.sync_config_list, List.append_eq]
    rw [ih]

theorem sync_config_list_length (fetch : String → Option Payload) :
    ∀ (l : List String) (s : ServiceState),
      (PokemonService.sync_config_list fetch s l).2.length = l.length := by
  intro l
  induction l with
  | nil => intro s; rfl
  | cons n rest ih =>
    intro s
    simp only [PokemonService.sync_config_list, List.length_cons]
    rw [ih]

/-- The adapter `fetch3` satisfies the external API's contract: each payload carries
the queried name. -/
theorem fetch3_consistent : FetchConsistent fetch3 := by
  intro n p h
  unfold fetch3 at h
  split at h
  next hn => cases h; rw [hn]; rfl
  next =>
    split at h
    next hn2 => cases h; rw [hn2]; rfl
    next => cases h

/-! ## The claims -/

/-- C2: for every name whose normalized form is absent from the store,
if the external adapter signals absence then `add_pokemon` returns a
failure (`None` record) whose message references both the original
input name and the normalized name, and the store is left unchanged. -/
theorem C2_add_fetch_failure (fetch : String → Option Payload) (s : ServiceState) (name : String)
    (h1 : PokemonRepository.get_by_name s.store (PokemonService._normalize_name name) = none)
    (h2 : fetch (lowerStr (PokemonService._normalize_name name)) = none) :
    (PokemonService.add_pokemon fetch s name).2.1 = none ∧
    (PokemonService.add_pokemon fetch s name).1.store = s.store ∧
    (PokemonService.add_pokemon fetch s name).2.2 =
      "Failed to fetch data for " ++ name ++ " (mapped to " ++
        PokemonService._normalize_name name ++ ")" ∧
    containsSub (PokemonService.add_pokemon fetch s name).2.2 name = true ∧
    containsSub (PokemonService.add_pokemon fetch s name).2.2
      (PokemonService._normalize_name name) = true := by
  rw [add_unfetched h1 h2]
  refine ⟨rfl, rfl, rfl, ?_, ?_⟩
  · have h := containsSub_append "Failed to fetch data for " name
      (" (mapped to " ++ (PokemonService._normalize_name name ++ ")"))
    simpa [String.append_assoc] using h
  · have h := containsSub_append
      ("Failed to fetch data for " ++ (name ++ " (mapped to "))
      (PokemonService._normalize_name name) ")"
    simpa [String.append_assoc] using h

/-- C2 witness: the failure path evaluated at a concrete absent name with
an always-failing adapter. -/
theorem C2_add_fetch_failure_witness :
    (PokemonService.add_pokemon fetchNone s0 "mewtwo").2.1 = none ∧
    (PokemonService.add_pokemon fetchNone s0 "mewtwo").1.store = s0.store ∧
    (PokemonService.add_pokemon fetchNone s0 "mewtwo").2.2 =
      "Failed to fetch data for " ++ "mewtwo" ++ " (mapped to " ++
        PokemonService._normalize_name "mewtwo" ++ ")" ∧
    containsSub (PokemonService.add_pokemon fetchNone s0 "mewtwo").2.2 "mewtwo" = true ∧
    containsSub (PokemonService.add_pokemon fetchNone s0 "mewtwo").2.2
      (PokemonService._normalize_name "mewtwo") = true :=
  C2_add_fetch_failure fetchNone s0 "mewtwo" rfl rfl

/-- C4: for every name whose normalized form has no record in the store,
`update_pokemon` returns failure without invoking the external adapter
(the `apiLog` is untouched) and without mutating the store: the absence
check short-circuits before any fetch. -/
theorem C4_update_absent_short_circuits (fetch : String → Option Payload) (s : ServiceState)
    (name : String)
    (h : PokemonRepository.get_by_name s.store (PokemonService._normalize_name name) = none) :
    (PokemonService.update_pokemon fetch s name).2.1 = false ∧
    (PokemonService.update_pokemon fetch s name).1.store = s.store ∧
    (PokemonService.update_pokemon fetch s name).1.apiLog = s.apiLog ∧
    (PokemonService.update_pokemon fetch s name).2.2 =
      "Pokemon " ++ PokemonService._normalize_name name ++ " not found locally" := by
  rw [update_missing h]
  exact ⟨rfl, rfl, rfl, rfl⟩

/-- C4 witness: updating a name absent from a nonempty store. -/
theorem C4_update_absent_short_circuits_witness :
    (PokemonService.update_pokemon fetch3 s1 "mewtwo").2.1 = false ∧
    (PokemonService.update_pokemon fetch3 s1 "mewtwo").1.store = s1.store ∧
    (PokemonService.update_pokemon fetch3 s1 "mewtwo").1.apiLog = s1.apiLog ∧
    (PokemonService.update_pokemon fetch3 s1 "mewtwo").2.2 =
      "Pokemon " ++ PokemonService._normalize_name "mewtwo" ++ " not found locally" :=
  C4_update_absent_short_circuits fetch3 s1 "mewtwo" rfl

/-- C8: the adapter's transformation never fails on missing nested
fields: when any of the keys backing abilities, stats, types, or moves
is absent from the payload, the corresponding output is the empty
container. -/
theorem C8_missing_nested_defaults_empty (data : Payload) :
    (data.abilities = none → (PokeAPIClient._process_pokemon_data data).abilities = []) ∧
    (data.stats = none → (PokeAPIClient._process_pokemon_data data).stats = []) ∧
    (data.types = none → (PokeAPIClient._process_pokemon_data data).types = []) ∧
    (data.moves = none → (PokeAPIClient._process_pokemon_data data).moves = []) := by
  refine ⟨fun h => ?_, fun h => ?_, fun h => ?_, fun h => ?_⟩ <;>
    simp [PokeAPIClient._process_pokemon_data, h]

/-- C8 witness: a payload with all four nested keys absent processes to
empty containers. -/
theorem C8_missing_nested_defaults_empty_witness :
    (samplePayload "pikachu").abilities = none ∧
    (PokeAPIClient._process_pokemon_data (samplePayload "pikachu")).abilities = [] ∧
    (PokeAPIClient._process_pokemon_data (samplePayload "pikachu")).stats = [] ∧
    (PokeAPIClient._process_pokemon_data (samplePayload "pikachu")).types = [] ∧
    (PokeAPIClient._process_pokemon_data (samplePayload "pikachu")).moves = [] :=
  ⟨rfl,
    (C8_missing_nested_defaults_empty (samplePayload "pikachu")).1 rfl,
    (C8_missing_nested_defaults_empty (samplePayload "pikachu")).2.1 rfl,
    (C8_missing_nested_defaults_empty (samplePayload "pikachu")).2.2.1 rfl,
    (C8_missing_nested_defaults_empty (samplePayload "pikachu")).2.2.2 rfl⟩

/-- C9: the adapter divides the payload's height and weight by 10; in
particular height 7, weight 69 normalize to 0.7 and 6.9. -/
theorem C9_unit_conversion :
    (∀ data : Payload,
      (PokeAPIClient._process_pokemon_data data).height = (data.height : ℚ) / 10 ∧
      (PokeAPIClient._process_pokemon_data data).weight = (data.weight : ℚ) / 10) ∧
    (PokeAPIClient._process_pokemon_data (samplePayload "pikachu")).height = 0.7 ∧
    (PokeAPIClient._process_pokemon_data (samplePayload "pikachu")).weight = 6.9 := by
  refine ⟨fun data => ⟨rfl, rfl⟩, ?_, ?_⟩ <;>
    norm_num [PokeAPIClient._process_pokemon_data, samplePayload]

/-- C5: when the normalized name has a record in the store (a persisted
row, hence one carrying an id) and the adapter returns a payload,
`update_pokemon` succeeds and persists the existing record (same id)
with every fetched field overwritten by the freshly fetched value. -/
theorem C5_update_overwrites_fields (fetch : String → Option Payload) (s : ServiceState)
    (name : String) (p : Pokemon) (i : Nat) (payload : Payload)
    (h1 : PokemonRepository.get_by_name s.store (PokemonService._normalize_name name) = some p)
    (hid : p.id = some i)
    (h2 : fetch (lowerStr (PokemonService._normalize_name name)) = some payload) :
    (PokemonService.update_pokemon fetch s name).2.1 = true ∧
    ∃ q ∈ (PokemonService.update_pokemon fetch s name).1.store,
      q.id = p.id ∧
      q.name = (PokeAPIClient._process_pokemon_data payload).name ∧
      q.height = (PokeAPIClient._process_pokemon_data payload).height ∧
      q.weight = (PokeAPIClient._process_pokemon_data payload).weight ∧
      q.base_experience = (PokeAPIClient._process_pokemon_data payload).base_experience ∧
      q.abilities = (PokeAPIClient._process_pokemon_data payload).abilities ∧
      q.stats = (PokeAPIClient._process_pokemon_data payload).stats ∧
      q.types = (PokeAPIClient._process_pokemon_data payload).types ∧
      q.moves = (PokeAPIClient._process_pokemon_data payload).moves := by
  rw [update_fetched h1 hid h2]
  refine ⟨rfl,
    ⟨updatedRecord p (PokeAPIClient._process_pokemon_data payload) s.now,
      ?_, rfl, rfl, rfl, rfl, rfl, rfl, rfl, rfl, rfl⟩⟩
  have hm := List.mem_map_of_mem
    (fun q => if q.id = p.id then
      updatedRecord p (PokeAPIClient._process_pokemon_data payload) s.now else q)
    (get_by_name_some h1).1
  simpa using hm

/-- C5 witness: updating the stored `bulbasaur` row from the concrete
adapter overwrites its fields with the processed payload values. -/
theorem C5_update_overwrites_fields_witness :
    (PokemonService.update_pokemon fetch3 sb "bulbasaur").2.1 = true ∧
    ∃ q ∈ (PokemonService.update_pokemon fetch3 sb "bulbasaur").1.store,
      q.id = pb.id ∧
      q.name = (PokeAPIClient._process_pokemon_data (samplePayload "bulbasaur")).name ∧
      q.height = (PokeAPIClient._process_pokemon_data (samplePayload "bulbasaur")).height ∧
      q.weight = (PokeAPIClient._process_pokemon_data (samplePayload "bulbasaur")).weight ∧
      q.base_experience =
        (PokeAPIClient._process_pokemon_data (samplePayload "bulbasaur")).base_experience ∧
      q.abilities = (PokeAPIClient._process_pokemon_data (samplePayload "bulbasaur")).abilities ∧
      q.stats = (PokeAPIClient._process_pokemon_data (samplePayload "bulbasaur")).stats ∧
      q.types = (PokeAPIClient._process_pokemon_data (samplePayload "bulbasaur")).types ∧
      q.moves = (PokeAPIClient._process_pokemon_data (samplePayload "bulbasaur")).moves :=
  C5_update_overwrites_fields fetch3 sb "bulbasaur" pb 1 (samplePayload "bulbasaur") rfl rfl rfl

/-- C10: a successful `update_pokemon` leaves the record's `id` and
`created_at` unchanged: the field-copy loop assigns only the eight keys
present in the adapter payload, so the persisted row keeps its prior id
and creation timestamp. -/
theorem C10_update_preserves_id_created_at (fetch : String → Option Payload) (s : ServiceState)
    (name : String) (p : Pokemon) (i : Nat) (payload : Payload)
    (h1 : PokemonRepository.get_by_name s.store (PokemonService._normalize_name name) = some p)
    (hid : p.id = some i)
    (h2 : fetch (lowerStr (PokemonService._normalize_name name)) = some payload) :
    (PokemonService.update_pokemon fetch s name).2.1 = true ∧
    ∃ q ∈ (PokemonService.update_pokemon fetch s name).1.store,
      q.id = p.id ∧ q.created_at = p.created_at := by
  rw [update_fetched h1 hid h2]
  refine ⟨rfl,
    ⟨updatedRecord p (PokeAPIClient._process_pokemon_data payload) s.now, ?_, rfl, rfl⟩⟩
  have hm := List.mem_map_of_mem
    (fun q => if q.id = p.id then
      updatedRecord p (PokeAPIClient._process_pokemon_data payload) s.now else q)
    (get_by_name_some h1).1
  simpa using hm

/-- C10 witness: the concrete update keeps `pb`'s id and creation
timestamp. -/
theorem C10_update_preserves_id_created_at_witness :
    (PokemonService.update_pokemon fetch3 sb "bulbasaur").2.1 = true ∧
    ∃ q ∈ (PokemonService.update_pokemon fetch3 sb "bulbasaur").1.store,
      q.id = pb.id ∧ q.created_at = pb.created_at :=
  C10_update_preserves_id_created_at fetch3 sb "bulbasaur" pb 1 (samplePayload "bulbasaur")
    rfl rfl rfl

/-- C1 counterexample: with an adapter that fails every request and an
initially empty store, two consecutive `add_pokemon` calls for the same
name invoke the external adapter twice, so "the adapter is invoked at
most once across two consecutive add calls" is false as stated. -/
theorem C1_counterexample :
    s0.apiLog = [] ∧
    ¬ ((PokemonService.add_pokemon fetchNone
        (PokemonService.add_pokemon fetchNone s0 "pikachu").1 "pikachu").1.apiLog.length ≤ 1) := by
  decide

/-- C1 (amended): when the normalized name already has a record,
`add_pokemon` returns the existing record's serialization with the
"already exists" message and leaves the whole state (store and adapter
log) unchanged; and across two consecutive add calls with the same name
the adapter is invoked at most once, provided the adapter's payloads
carry the queried name and the first call succeeds (returns a record) —
when the first fetch fails, the second call fetches again. -/
theorem C1_add_idempotent_no_refetch :
    (∀ (fetch : String → Option Payload) (s : ServiceState) (name : String) (p : Pokemon),
      PokemonRepository.get_by_name s.store (PokemonService._normalize_name name) = some p →
        PokemonService.add_pokemon fetch s name =
          (s, some p.to_dict,
            "Pokemon " ++ PokemonService._normalize_name name ++ " already exists in database") ∧
        containsSub (PokemonService.add_pokemon fetch s name).2.2 "already exists" = true) ∧
    (∀ (fetch : String → Option Payload) (s : ServiceState) (name : String),
      FetchConsistent fetch →
      (PokemonService.add_pokemon fetch s name).2.1.isSome = true →
        (PokemonService.add_pokemon fetch
            (PokemonService.add_pokemon fetch s name).1 name).1.apiLog.length ≤
          s.apiLog.length + 1) := by
  constructor
  · intro fetch s name p h
    refine ⟨add_existing h, ?_⟩
    rw [add_existing h]
    exact containsSub_right ("Pokemon " ++ PokemonService._normalize_name name)
      " already exists in database" "already exists" (by decide)
  · intro fetch s name hfc hsome
    cases h1 : PokemonRepository.get_by_name s.store (PokemonService._normalize_name name) with
    | some p =>
      have e1 : (PokemonService.add_pokemon fetch s name).1 = s := by rw [add_existing h1]
      rw [e1, e1]
      omega
    | none =>
      cases h2 : fetch (lowerStr (PokemonService._normalize_name name)) with
      | none =>
        rw [add_unfetched h1 h2] at hsome
        simp at hsome
      | some payload =>
        have e1 : (PokemonService.add_pokemon fetch s name).1 =
            { store := s.store ++ [insertedRecord s.store s.now
                (PokeAPIClient._process_pokemon_data payload)],
              apiLog := s.apiLog ++ [PokemonService._normalize_name name], now := s.now } := by
          rw [add_fetched h1 h2]
        have hrname : (insertedRecord s.store s.now
            (PokeAPIClient._process_pokemon_data payload)).name =
              lowerStr (PokemonService._normalize_name name) := hfc _ _ h2
        have hget2 : PokemonRepository.get_by_name
            (({ store := s.store ++ [insertedRecord s.store s.now
                  (PokeAPIClient._process_pokemon_data payload)],
                apiLog := s.apiLog ++ [PokemonService._normalize_name name],
                now := s.now } : ServiceState)).store
            (PokemonService._normalize_name name) =
              some (insertedRecord s.store s.now
                (PokeAPIClient._process_pokemon_data payload)) :=
          get_by_name_append_fresh h1 hrname
        rw [e1, add_existing hget2]
        simp

/-- C1 witness: the already-present branch at a concrete store, and the
two-call bound with the concrete consistent adapter starting from the
empty store. -/
theorem C1_add_idempotent_no_refetch_witness :
    (PokemonService.add_pokemon fetch3 s1 "pikachu" =
        (s1, some p1.to_dict,
          "Pokemon " ++ PokemonService._normalize_name "pikachu" ++
            " already exists in database") ∧
      containsSub (PokemonService.add_pokemon fetch3 s1 "pikachu").2.2
        "already exists" = true) ∧
    (PokemonService.add_pokemon fetch3
        (PokemonService.add_pokemon fetch3 s0 "bulbasaur").1 "bulbasaur").1.apiLog.length ≤
      s0.apiLog.length + 1 :=
  ⟨C1_add_idempotent_no_refetch.1 fetch3 s1 "pikachu" p1 rfl,
    C1_add_idempotent_no_refetch.2 fetch3 s0 "bulbasaur" fetch3_consistent (by decide)⟩

/-- C3: the batch sync is sequential in list order with no short-circuit
(the sync of a concatenation is the sync of the first part followed by
the sync of the second from the resulting state), every name yields
exactly one classified outcome, and on the concrete list of one failing
and two succeeding names exactly the two fetchable records are persisted
with outcomes failed/added/added (the function is total: no exception). -/
theorem C3_sync_sequential_no_abort :
    (∀ (fetch : String → Option Payload) (s : ServiceState) (l₁ l₂ : List String),
      PokemonService.sync_config_list fetch s (l₁ ++ l₂) =
        ((PokemonService.sync_config_list fetch
            (PokemonService.sync_config_list fetch s l₁).1 l₂).1,
          (PokemonService.sync_config_list fetch s l₁).2 ++
            (PokemonService.sync_config_list fetch
              (PokemonService.sync_config_list fetch s l₁).1 l₂).2)) ∧
    (∀ (fetch : String → Option Payload) (s : ServiceState) (l : List String),
      (PokemonService.sync_config_list fetch s l).2.length = l.length) ∧
    (PokemonService.sync_config_list fetch3 s0
        ["missingno", "bulbasaur", "charmander"]).1.store.map (fun p => p.name) =
      ["bulbasaur", "charmander"] ∧
    (PokemonService.sync_config_list fetch3 s0 ["missingno", "bulbasaur", "charmander"]).2 =
      [PokemonService.SyncOutcome.failed, PokemonService.SyncOutcome.added,
        PokemonService.SyncOutcome.added] := by
  refine ⟨fun fetch s l₁ l₂ => sync_config_list_append fetch l₁ l₂ s,
    fun fetch s l => sync_config_list_length fetch l s, by decide, by decide⟩

/-- C6 counterexample: nothing in the code enforces lowercase persisted
names — if the adapter serves a payload whose name field is "Pikachu",
`add_pokemon` persists it verbatim, so "every record ever persisted has
a lowercase name" is false as stated. -/
theorem C6_counterexample :
    ((PokemonService.add_pokemon fetchRogue s0 "pikachu").1.store.map (fun p => p.name)) =
      ["Pikachu"] ∧
    ¬ (∀ p ∈ (PokemonService.add_pokemon fetchRogue s0 "pikachu").1.store,
        lowerStr p.name = p.name) := by
  decide

/-- C6 (amended): lookups always compare against the lowercased name
(any record returned by `get_by_name` has the lowercased query as its
name), and — provided the external adapter's payloads carry the queried
name, as the real collaborator does — every operation (add, update,
delete, batch sync) maintains the store invariant: names lowercase and
unique (with distinct persisted ids). -/
theorem C6_store_invariant_maintained :
    (∀ (store : List Pokemon) (nm : String) (p : Pokemon),
      PokemonRepository.get_by_name store nm = some p → p.name = lowerStr nm) ∧
    (∀ (fetch : String → Option Payload) (s : ServiceState),
      FetchConsistent fetch → StoreWF s.store →
        (∀ name, StoreWF (PokemonService.add_pokemon fetch s name).1.store) ∧
        (∀ name, StoreWF (PokemonService.update_pokemon fetch s name).1.store) ∧
        (∀ name, StoreWF (PokemonService.delete_pokemon s name).1.store) ∧
        (∀ l, StoreWF (PokemonService.sync_config_list fetch s l).1.store)) := by
  refine ⟨fun store nm p h => (get_by_name_some h).2,
    fun fetch s hfc hwf => ⟨?_, ?_, ?_, ?_⟩⟩
  · exact fun name => add_preserves_WF hfc s name hwf
  · exact fun name => update_preserves_WF hfc s name hwf
  · exact fun name => delete_preserves_WF s name hwf
  · exact fun l => sync_preserves_WF hfc l s hwf

/-- C6 witness: the invariant evaluated through each operation on a
concrete well-formed store with the concrete consistent adapter. -/
theorem C6_store_invariant_maintained_witness :
    p1.name = lowerStr "pikachu" ∧
    StoreWF (PokemonService.add_pokemon fetch3 s1 "bulbasaur").1.store ∧
    StoreWF (PokemonService.update_pokemon fetch3 s1 "pikachu").1.store ∧
    StoreWF (PokemonService.delete_pokemon s1 "pikachu").1.store ∧
    StoreWF (PokemonService.sync_config_list fetch3 s1 ["bulbasaur", "charmander"]).1.store :=
  ⟨C6_store_invariant_maintained.1 s1.store "pikachu" p1 rfl,
    (C6_store_invariant_maintained.2 fetch3 s1 fetch3_consistent
      ⟨by decide, by decide, by decide, by decide⟩).1 "bulbasaur",
    (C6_store_invariant_maintained.2 fetch3 s1 fetch3_consistent
      ⟨by decide, by decide, by decide, by decide⟩).2.1 "pikachu",
    (C6_store_invariant_maintained.2 fetch3 s1 fetch3_consistent
      ⟨by decide, by decide, by decide, by decide⟩).2.2.1 "pikachu",
    (C6_store_invariant_maintained.2 fetch3 s1 fetch3_consistent
      ⟨by decide, by decide, by decide, by decide⟩).2.2.2 ["bulbasaur", "charmander"]⟩

/-- C7 counterexample: for a name the adapter can serve ("valid") but
whose payload name is capitalized, `add_pokemon` persists the
capitalized name and the subsequent `get_pokemon` on the same input
returns nothing — not a record named with the normalized form. -/
theorem C7_counterexample :
    fetchRogue (lowerStr (PokemonService._normalize_name "pikachu")) =
      some (samplePayload "Pikachu") ∧
    s0.store = [] ∧
    PokemonService.get_pokemon (PokemonService.add_pokemon fetchRogue s0 "pikachu").1
      "pikachu" = none := by
  refine ⟨rfl, rfl, by decide⟩

/-- C7 (amended): for every name not yet stored for which the adapter
returns a payload, provided the payload carries the queried (normalized)
name — the real collaborator's behavior — `add_pokemon` followed by
`get_pokemon` on the same input returns a record whose name equals the
normalized form of the input name. -/
theorem C7_add_then_get (fetch : String → Option Payload) (s : ServiceState) (name : String)
    (payload : Payload)
    (hfc : FetchConsistent fetch)
    (h1 : PokemonRepository.get_by_name s.store (PokemonService._normalize_name name) = none)
    (h2 : fetch (lowerStr (PokemonService._normalize_name name)) = some payload) :
    ∃ d, PokemonService.get_pokemon (PokemonService.add_pokemon fetch s name).1 name = some d ∧
      d.name = PokemonService._normalize_name name := by
  have hrname : (insertedRecord s.store s.now
      (PokeAPIClient._process_pokemon_data payload)).name =
        lowerStr (PokemonService._normalize_name name) := hfc _ _ h2
  have e1 : (PokemonService.add_pokemon fetch s name).1.store =
      s.store ++ [insertedRecord s.store s.now
        (PokeAPIClient._process_pokemon_data payload)] := by
    rw [add_fetched h1 h2]
  refine ⟨(insertedRecord s.store s.now (PokeAPIClient._process_pokemon_data payload)).to_dict,
    ?_, ?_⟩
  · simp only [PokemonService.get_pokemon]
    rw [e1, get_by_name_append_fresh h1 hrname]
    rfl
  · show (insertedRecord s.store s.now (PokeAPIClient._process_pokemon_data payload)).name =
      PokemonService._normalize_name name
    rw [hrname, normalize_isLower]

/-- C7 witness: adding and reading back `bulbasaur` with the concrete
consistent adapter from the empty store. -/
theorem C7_add_then_get_witness :
    ∃ d, PokemonService.get_pokemon (PokemonService.add_pokemon fetch3 s0 "bulbasaur").1
        "bulbasaur" = some d ∧
      d.name = PokemonService._normalize_name "bulbasaur" :=
  C7_add_then_get fetch3 s0 "bulbasaur" (samplePayload "bulbasaur") fetch3_consistent rfl rfl

end PokeETL
